import Mathlib

/-!
Verification of the PackFS versioning core: the git wrappers
(`src/versioning/git-wrapper.ts`, `src/versioning/isomorphic-git-wrapper.ts`)
and the versioned semantic backend overlay
(`src/versioning/versioned-disk-semantic-backend.ts`).

The TypeScript code is shallowly embedded: class state becomes explicit
state records, async methods become pure state-transformer functions, and
the external git engine's per-call success or failure is injected through
explicit oracle parameters (the engine itself is not part of the
repository).
-/

namespace PackFS

/-- Association-list lookup keyed by `String`, mirroring `Map.get`. -/
def alookup {α : Type} : List (String × α) → String → Option α
  | [], _ => none
  | (k, v) :: rest, key => if key = k then some v else alookup rest key

/-- Association-list insert-or-replace, mirroring `Map.set`. -/
def aset {α : Type} : List (String × α) → String → α → List (String × α)
  | [], key, v => [(key, v)]
  | (k, w) :: rest, key, v =>
    if key = k then (key, v) :: rest else (k, w) :: aset rest key v

/-- Association-list removal, mirroring `Map.delete`. -/
def aremove {α : Type} (l : List (String × α)) (key : String) : List (String × α) :=
  l.filter (fun p => p.1 ≠ key)

/-- Keys of an association list, in order. -/
def akeys {α : Type} (l : List (String × α)) : List String :=
  l.map Prod.fst

/-- Tests that `p` is a leading substring of `s` (JS `String.prototype.startsWith`),
computed on the character lists so that it is kernel-evaluable. -/
def strStarts (p s : String) : Bool :=
  p.toList.isPrefixOf s.toList

/-! ### Commit message builder

Embedding of `VersionedDiskSemanticBackend.generateCommitMessage`
(`versioned-disk-semantic-backend.ts`, lines 76-119).  The JS `details`
argument is a loose object whose values may be `undefined`; it is modelled
as an association list of optional strings.  The ambient
`new Date().toISOString()` is passed in as the explicit `now` argument. -/

/-- JS property access `details.k`: `none` stands for both an absent key and
a present-but-`undefined` value (the two behave identically in every use
site of `generateCommitMessage`'s default branch). -/
def dget (d : List (String × Option String)) (k : String) : Option String :=
  match alookup d k with
  | some v => v
  | none => none

/-- JS string interpolation of a possibly-`undefined` value
(`String(undefined)` and `` `${undefined}` `` produce `"undefined"`). -/
def jsStr : Option String → String
  | some s => s
  | none => "undefined"

/-- JS `a || b` on string-or-`undefined` values: `undefined` and `""` are
falsy and fall through to `b`. -/
def jsOrS : Option String → Option String → Option String
  | some s, b => if s = "" then b else some s
  | none, b => b

/-- The `defaultMessages[operation] || `${operation} operation`` table from
`generateCommitMessage` (lines 79-93). -/
def defaultMessage (operation : String) (d : List (String × Option String)) : String :=
  if operation = "create" then "Create " ++ jsStr (dget d "path")
  else if operation = "update" then "Update " ++ jsStr (dget d "path")
  else if operation = "overwrite" then "Overwrite " ++ jsStr (dget d "path")
  else if operation = "append" then "Append to " ++ jsStr (dget d "path")
  else if operation = "delete" then "Delete " ++ jsStr (dget d "path")
  else if operation = "delete_file" then "Delete " ++ jsStr (dget d "path")
  else if operation = "delete_directory" then "Delete directory " ++ jsStr (dget d "path")
  else if operation = "move" then
    "Move " ++ jsStr (dget d "sourcePath") ++ " to " ++ jsStr (dget d "targetPath")
  else if operation = "copy" then
    "Copy " ++ jsStr (dget d "sourcePath") ++ " to " ++ jsStr (dget d "targetPath")
  else if operation = "organize" then "Organize files in " ++ jsStr (dget d "path")
  else if operation = "create_directory" then
    "Create directory " ++ jsStr (jsOrS (dget d "path") (dget d "targetPath"))
  else operation ++ " operation"

/-- Replace every (left-to-right, non-overlapping) occurrence of `pat` in the
haystack by `rep`, on character lists; models `String.replace(re, v)` with a
global literal-text regex.  Fuel-driven; `replaceAll` below supplies enough
fuel since every step consumes at least one character. -/
def replaceChars (pat rep : List Char) : Nat → List Char → List Char
  | 0, s => s
  | _ + 1, [] => []
  | fuel + 1, c :: rest =>
    if pat ≠ [] ∧ pat.isPrefixOf (c :: rest) then
      rep ++ replaceChars pat rep fuel ((c :: rest).drop pat.length)
    else
      c :: replaceChars pat rep fuel rest

/-- String-level global replacement of the literal pattern `pat` by `rep`. -/
def replaceAll (s pat rep : String) : String :=
  ⟨replaceChars pat.toList rep.toList s.toList.length s.toList⟩

/-- Keys already seen are skipped; otherwise kept in first-occurrence order. -/
def dedupKeysAux : List String → List String → List String
  | _, [] => []
  | seen, k :: rest =>
    if k ∈ seen then dedupKeysAux seen rest
    else k :: dedupKeysAux (k :: seen) rest

/-- Key list of a JS object built as `\x7b a, b, ..., ...details \x7d`:
first-occurrence order, duplicates dropped. -/
def dedupKeys (l : List String) : List String :=
  dedupKeysAux [] l

/-- Value of key `k` in the object: the **last** binding wins (later object
literal entries and spreads overwrite earlier ones). -/
def ctxVal (ctx : List (String × Option String)) (k : String) : Option String :=
  dget ctx.reverse k

/-- The `Object.entries(context).forEach(... replace ...)` loop
(lines 113-116): each deduplicated key's `\x7b\x7bkey\x7d\x7d` placeholder is
globally replaced by `String(value)`. -/
def substituteTemplate (tmpl : String) (ctx : List (String × Option String)) : String :=
  (dedupKeys (ctx.map Prod.fst)).foldl
    (fun m k => replaceAll m ("\x7b\x7b" ++ k ++ "\x7d\x7d") (jsStr (ctxVal ctx k))) tmpl

/-- Embeds `generateCommitMessage(operation, details)` (lines 76-119).
`template` is `versioningConfig?.commitMessageTemplate` (an empty string is
falsy, selecting the default branch, exactly as `!cfg?.commitMessageTemplate`
does); `currentTaskId` is the instance field; `now` is the ambient clock. -/
def generateCommitMessage (template : Option String) (currentTaskId : Option String)
    (now : String) (operation : String) (details : List (String × Option String)) : String :=
  if template.getD "" = "" then
    let message := defaultMessage operation details
    match currentTaskId with
    | some tid => ("[" ++ tid ++ "] ") ++ message
    | none => message
  else
    let context : List (String × Option String) :=
      [("operation", some operation),
       ("path", jsOrS (dget details "path") (jsOrS (dget details "sourcePath") (some ""))),
       ("taskId", some (currentTaskId.getD "")),
       ("timestamp", some now)] ++ details
    substituteTemplate (template.getD "") context

/-! ### Working tree and repository model

The git engine is external to the repository; the wrappers in
`git-wrapper.ts` and `isomorphic-git-wrapper.ts` drive it.  A repository is
modelled by the data the wrapper methods observe and change: an initialized
flag, the checked-out branch, the commit list (newest first) and three file
trees (committed `HEAD` tree, staging index, working directory), each an
association list from path to content. -/

/-- A file tree: path-to-content association list. -/
abbrev Tree := List (String × String)

/-- One commit record (hash and message are all the claims observe). -/
structure GitCommit where
  hash : String
  message : String
deriving DecidableEq, Repr

/-- Repository state as observed through the wrapper operations. -/
structure GitRepo where
  initialized : Bool
  currentBranch : String
  commits : List GitCommit
  headTree : Tree
  index : Tree
  workdir : Tree
deriving DecidableEq, Repr

/-- Embeds `GitConfig` from either wrapper (only `defaultBranch` influences the
modelled operations; `userInfo` only sets commit authorship). -/
structure WrapperConfig where
  defaultBranch : Option String := none
deriving DecidableEq, Repr

/-- Insert-or-replace in a tree (what writing a file or staging it does). -/
def setTree (t : Tree) (k v : String) : Tree :=
  if (alookup t k).isSome then
    t.map (fun p => if p.1 = k then (k, v) else p)
  else
    t ++ [(k, v)]

/-- Remove a path from a tree. -/
def removeTree (t : Tree) (k : String) : Tree :=
  t.filter (fun p => p.1 ≠ k)

/-- Content-wise tree equality (what `git diff --cached --exit-code`
checks between index and `HEAD`): every path present in either tree has the
same content in both. -/
def treeEq (t1 t2 : Tree) : Bool :=
  ((t1 ++ t2).map Prod.fst).all (fun k => alookup t1 k == alookup t2 k)

/-- Deterministic stand-in for engine-assigned commit hashes. -/
def newHash (r : GitRepo) : String :=
  "commit" ++ toString (r.commits.length + 1)

/-- A user file write into the working directory (done by the wrapped
semantic backend, outside the wrappers; used to state scenarios). -/
def writeFile (r : GitRepo) (p c : String) : GitRepo :=
  { r with workdir := setTree r.workdir p c }

namespace GitWrapper

/-!  Embedding of `git-wrapper.ts` (subprocess-`git` backed).  Each `exec`
that can fail surfaces as `Except String`; the error text is the
`Git command failed: ...` wrapper from `GitWrapper.exec` (line 57). -/

/-- A pathspec matches when the path is in the working tree or already
tracked in the index; `git add` exits fatal on any unmatched pathspec. -/
def canStage (r : GitRepo) (f : String) : Bool :=
  (alookup r.workdir f).isSome || (alookup r.index f).isSome

/-- Staging effect of one matched path: stage the current working-directory
content, or record the deletion of a tracked path missing from the working
tree. -/
def stageOne (r : GitRepo) (f : String) : GitRepo :=
  match alookup r.workdir f with
  | some c => { r with index := setTree r.index f c }
  | none => { r with index := removeTree r.index f }

/-- Embeds `GitWrapper.add` (lines 114-123): one `git add p1 p2 ...`
subprocess for the whole list (an empty list issues nothing).  If any
pathspec matches neither the working tree nor the index, git exits fatal
("pathspec did not match any files"), nothing is staged and `exec` throws;
otherwise every listed path is staged. -/
def add (r : GitRepo) (files : List String) : Except String GitRepo :=
  if files.all (canStage r) then
    .ok (files.foldl stageOne r)
  else
    .error "Git command failed: pathspec did not match any files"

/-- Embeds the `git add .` issued by `ensureRepo` (line 105): the index becomes a
snapshot of the working directory. -/
def addAll (r : GitRepo) : GitRepo :=
  { r with index := r.workdir }

/-- Embeds `GitWrapper.commit` (lines 128-144): runs `git commit -m`.  When the
index tree equals the `HEAD` tree, `git commit` exits non-zero
("nothing to commit") and `exec` throws; otherwise a commit is created and
its hash returned. -/
def commit (r : GitRepo) (message : String) : Except String (GitRepo × String) :=
  if treeEq r.index r.headTree then
    .error "Git command failed: nothing to commit, working tree clean"
  else
    let h := newHash r
    .ok ({ r with commits := ⟨h, message⟩ :: r.commits, headTree := r.index }, h)

/-- Embeds `GitWrapper.addAndCommit` (lines 149-161): stage (a staging
failure propagates, `add` is not inside the try), then
`git diff --cached --exit-code`; exit code 0 (index equals `HEAD`) yields
the empty sentinel `""` without committing, otherwise commit. -/
def addAndCommit (r : GitRepo) (files : List String) (message : String) :
    Except String (GitRepo × String) :=
  match add r files with
  | .error e => .error e
  | .ok r1 =>
    if treeEq r1.index r1.headTree then
      .ok (r1, "")
    else
      commit r1 message

/-- Embeds `GitWrapper.init` (lines 76-89): `git init` produces a fresh empty
repository on branch `master`; a configured non-`master` default branch is
then created and checked out with `git checkout -b`. -/
def init (cfg : WrapperConfig) (r : GitRepo) : GitRepo :=
  let r1 : GitRepo :=
    { initialized := true, currentBranch := "master", commits := [],
      headTree := [], index := [], workdir := r.workdir }
  match cfg.defaultBranch with
  | some b => if b ≠ "master" then { r1 with currentBranch := b } else r1
  | none => r1

/-- The `fs.readdirSync(...).some(file => !file.startsWith('.git'))`
pre-existing-files test in `ensureRepo` (lines 100-102). -/
def hasFiles (r : GitRepo) : Bool :=
  r.workdir.any (fun p => !(strStarts ".git" p.1))

/-- Embeds `GitWrapper.ensureRepo` (lines 94-109). -/
def ensureRepo (cfg : WrapperConfig) (r : GitRepo) : Except String GitRepo :=
  if r.initialized then
    .ok r
  else
    let r1 := init cfg r
    if hasFiles r1 then
      (commit (addAll r1) "Initial commit").map Prod.fst
    else
      .ok r1

end GitWrapper

namespace IsoGit

/-!  Embedding of `isomorphic-git-wrapper.ts` (pure-JS engine). -/

/-- Embeds `IsomorphicGitWrapper.add` (lines 91-107): per-file `git.add`; a path
that cannot be added (missing file) is warned about and skipped. -/
def stageFile (r : GitRepo) (f : String) : GitRepo :=
  match alookup r.workdir f with
  | some c => { r with index := setTree r.index f c }
  | none => r

/-- Embeds `IsomorphicGitWrapper.add` over a path list. -/
def add (r : GitRepo) (files : List String) : GitRepo :=
  files.foldl stageFile r

/-- The `statusMatrix` staging test in `commit` (lines 115-127): a row is
flagged when `stage !== head || stage !== workdir`, i.e. unless the `HEAD`,
working-directory and staged versions of the path all agree. -/
def hasStaged (r : GitRepo) : Bool :=
  ((r.headTree ++ r.workdir ++ r.index).map Prod.fst).any
    (fun p => !(alookup r.headTree p == alookup r.index p
                && alookup r.workdir p == alookup r.index p))

/-- Embeds `IsomorphicGitWrapper.commit` (lines 112-145): returns the empty
sentinel when nothing is flagged, otherwise commits the index. -/
def commit (r : GitRepo) (message : String) : GitRepo × String :=
  if hasStaged r then
    let h := newHash r
    ({ r with commits := ⟨h, message⟩ :: r.commits, headTree := r.index }, h)
  else
    (r, "")

/-- Embeds `IsomorphicGitWrapper.addAndCommit` (lines 150-153). -/
def addAndCommit (r : GitRepo) (files : List String) (message : String) :
    GitRepo × String :=
  commit (add r files) message

/-- Embeds `IsomorphicGitWrapper.init` (lines 56-62): `git.init` with
`defaultBranch: config.defaultBranch || 'main'`. -/
def init (cfg : WrapperConfig) (r : GitRepo) : GitRepo :=
  { initialized := true, currentBranch := cfg.defaultBranch.getD "main",
    commits := [], headTree := [], index := [], workdir := r.workdir }

/-- The per-file readdir loop of `ensureRepo` (lines 72-84). -/
def hasFiles (r : GitRepo) : Bool :=
  r.workdir.any (fun p => !(strStarts ".git" p.1))

/-- Embeds `IsomorphicGitWrapper.ensureRepo` (lines 67-86): initialize, then add
each non-`.git` file individually and create the initial commit. -/
def ensureRepo (cfg : WrapperConfig) (r : GitRepo) : GitRepo :=
  if r.initialized then
    r
  else
    let r1 := init cfg r
    if hasFiles r1 then
      let r2 := (r1.workdir.filter (fun p => !(strStarts ".git" p.1))).foldl
        (fun acc p => stageFile acc p.1) r1
      (commit r2 "Initial commit").1
    else
      r1

end IsoGit

/-! ### Versioning overlay

Embedding of `VersionedDiskSemanticBackend`
(`versioned-disk-semantic-backend.ts`).  The instance fields that the task
and commit logic reads and writes become `OverlayState`.  Calls into the
`GitWrapper` driver are suspension points whose success or failure depends
on the external git engine and the working tree; each public operation
therefore takes an oracle recording the outcome of each driver call it can
make (`none`/`.ok` = the call succeeded, `some msg`/`.error msg` = the call
threw with message `msg`).  On success the oracle-independent effect on the
modelled repository state (the checked-out branch) is applied. -/

/-- Embeds `TaskConfig` (`types.ts`, lines 46-72). -/
structure TaskConfig where
  id : String
  description : Option String := none
  branch : Option String := none
  baseBranch : Option String := none
  autoMerge : Option Bool := none
deriving DecidableEq, Repr

/-- Conflict strategies of `CompleteTaskOptions.mergeOptions.strategy`. -/
inductive MergeStrategy
  | ours
  | theirs
  | manual
deriving DecidableEq, Repr

/-- Embeds `CompleteTaskOptions.mergeOptions` (`types.ts`, lines 96-106). -/
structure MergeOptions where
  strategy : Option MergeStrategy := none
  message : Option String := none
deriving DecidableEq, Repr

/-- Embeds `CompleteTaskOptions` (`types.ts`, lines 77-107). -/
structure CompleteTaskOptions where
  merge : Option Bool := none
  createSummary : Option Bool := none
  summaryMessage : Option String := none
  mergeOptions : Option MergeOptions := none
deriving DecidableEq, Repr

/-- Embeds `TaskResult` (`types.ts`, lines 112-119). -/
structure TaskResult where
  success : Bool
  taskId : String
  branch : Option String := none
  commits : Option (List String) := none
  merged : Option Bool := none
  error : Option String := none
deriving DecidableEq, Repr

/-- Embeds `CommitResult` (`types.ts`, lines 124-129). -/
structure CommitResult where
  success : Bool
  hash : Option String := none
  message : Option String := none
  error : Option String := none
deriving DecidableEq, Repr

/-- One entry of `HistoryResult.commits` (`types.ts`, lines 136-141). -/
structure CommitRecord where
  hash : String
  message : String
  date : String
  author : String
deriving DecidableEq, Repr

/-- Embeds `HistoryResult` (`types.ts`, lines 134-143). -/
structure HistoryResult where
  success : Bool
  commits : Option (List CommitRecord) := none
  error : Option String := none
deriving DecidableEq, Repr

/-- Embeds `TaskState` (`types.ts`, lines 148-153); `startTime` is the stringified
`new Date()` taken at `startTask` time. -/
structure TaskState where
  config : TaskConfig
  branch : String
  startTime : String
  commits : List String
deriving DecidableEq, Repr

/-- The mutable instance state of `VersionedDiskSemanticBackend` that the
versioning logic touches, plus the checked-out branch of the underlying
working tree (`repoBranch`), which driver checkouts move.
`hasGit` is `this.git !== undefined`, `enabled` is
`versioningConfig?.enabled`, `autoCommitOff` is
`versioningConfig.autoCommit === false`, `defaultBranch` is
`versioningConfig?.defaultBranch`. -/
structure OverlayState where
  hasGit : Bool
  enabled : Bool
  autoCommitOff : Bool
  template : Option String := none
  defaultBranch : Option String := none
  activeTasks : List (String × TaskState) := []
  currentTaskId : Option String := none
  repoBranch : String
deriving DecidableEq, Repr

/-- Outcome of one `git.addAndCommit` driver call: thrown error, or the
returned hash (`""` is the nothing-staged sentinel). -/
abbrev CommitOutcome := Except String String

/-- Append hash `h` to the commit list of the entry keyed `tid`. -/
def bumpTask (l : List (String × TaskState)) (tid h : String) :
    List (String × TaskState) :=
  l.map (fun p =>
    if p.1 = tid then (p.1, { p.2 with commits := p.2.commits ++ [h] }) else p)

/-- The `task.commits.push(hash)` bookkeeping applied to the task named by
`currentTaskId`, if registered (`commitIfEnabled`, lines 137-142, and
`commit`, lines 411-416). -/
def pushToCurrent (s : OverlayState) (h : String) : OverlayState :=
  match s.currentTaskId with
  | none => s
  | some tid =>
    match alookup s.activeTasks tid with
    | none => s
    | some _ => { s with activeTasks := bumpTask s.activeTasks tid h }

/-- Embeds `commitIfEnabled(files, operation, details)` (lines 124-148): skipped
unless git is present, versioning enabled and auto-commit not disabled; a
driver failure is logged and swallowed; a non-empty returned hash is pushed
onto the active task's commit list.  The commit message (built by
`generateCommitMessage`) and the staged file list only parametrize the
driver call, whose outcome `out` abstracts. -/
def commitIfEnabled (s : OverlayState) (out : CommitOutcome) : OverlayState :=
  if !s.hasGit || !s.enabled || s.autoCommitOff then s
  else
    match out with
    | .error _ => s
    | .ok h => if h ≠ "" then pushToCurrent s h else s

/-- Oracle for the driver calls `startTask` can make. -/
structure StartOracle where
  createBranch : Option String := none
  startCommit : CommitOutcome := .ok ""
deriving Repr

/-- Embeds `startTask(config)` (lines 212-270). -/
def startTask (s : OverlayState) (config : TaskConfig) (now : String)
    (o : StartOracle) : OverlayState × TaskResult :=
  if !s.hasGit then
    (s, { success := false, taskId := config.id,
          error := some "Git versioning is not enabled" })
  else
    match s.currentTaskId with
    | some tid =>
      (s, { success := false, taskId := config.id,
            error := some ("Task " ++ tid ++
              " is already active. Complete it before starting a new task.") })
    | none =>
      let branchName := config.branch.getD ("task-" ++ config.id)
      match o.createBranch with
      | some msg => (s, { success := false, taskId := config.id, error := some msg })
      | none =>
        let s1 : OverlayState :=
          { s with repoBranch := branchName,
                   activeTasks := aset s.activeTasks config.id
                     ⟨config, branchName, now, []⟩,
                   currentTaskId := some config.id }
        let s2 := if config.description.isSome then commitIfEnabled s1 o.startCommit else s1
        (s2, { success := true, taskId := config.id, branch := some branchName })

/-- JS truthiness of the optional booleans in options objects. -/
def optTrue (b : Option Bool) : Bool :=
  b.getD false

/-- Reads `options?.mergeOptions?.strategy` as `completeTask` does. -/
def strategyOf (options : Option CompleteTaskOptions) : Option MergeStrategy :=
  (options.bind CompleteTaskOptions.mergeOptions).bind MergeOptions.strategy

/-- Oracle for the driver calls `completeTask` can make. -/
structure CompleteOracle where
  summaryCommit : CommitOutcome := .ok ""
  checkout : Option String := none
  merge : Option String := none
deriving Repr

/-- Embeds `completeTask(taskId, options)` (lines 272-342).  The `task` binding is
looked up before the summary commit; its mutable `commits` array aliases the
registered `TaskState`, so the returned commit list is re-read from the
state after the summary commit. -/
def completeTask (s : OverlayState) (taskId : String)
    (options : Option CompleteTaskOptions) (o : CompleteOracle) :
    OverlayState × TaskResult :=
  if !s.hasGit then
    (s, { success := false, taskId, error := some "Git versioning is not enabled" })
  else
    match alookup s.activeTasks taskId with
    | none =>
      (s, { success := false, taskId,
            error := some ("Task " ++ taskId ++ " not found") })
    | some task =>
      let s1 :=
        if optTrue (options.bind CompleteTaskOptions.createSummary) then
          commitIfEnabled s o.summaryCommit
        else s
      let baseBranch := task.config.baseBranch.getD "main"
      match o.checkout with
      | some msg => (s1, { success := false, taskId, error := some msg })
      | none =>
        let s2 := { s1 with repoBranch := baseBranch }
        let finish : Bool → OverlayState × TaskResult := fun merged =>
          let commitsNow :=
            match alookup s2.activeTasks taskId with
            | some t => t.commits
            | none => task.commits
          let s3 : OverlayState :=
            { s2 with activeTasks := aremove s2.activeTasks taskId,
                      currentTaskId :=
                        if s2.currentTaskId = some taskId then none
                        else s2.currentTaskId }
          (s3, { success := true, taskId, branch := some task.branch,
                 commits := some commitsNow, merged := some merged })
        if optTrue task.config.autoMerge || optTrue (options.bind CompleteTaskOptions.merge) then
          match o.merge with
          | none => finish true
          | some msg =>
            if strategyOf options ≠ some .manual then
              (s2, { success := false, taskId, error := some msg })
            else
              finish false
        else
          finish false

/-- Oracle for the driver call `abortTask` makes. -/
structure AbortOracle where
  checkout : Option String := none
deriving Repr

/-- Embeds `abortTask(taskId)` (lines 344-388). -/
def abortTask (s : OverlayState) (taskId : String) (o : AbortOracle) :
    OverlayState × TaskResult :=
  if !s.hasGit then
    (s, { success := false, taskId, error := some "Git versioning is not enabled" })
  else
    match alookup s.activeTasks taskId with
    | none =>
      (s, { success := false, taskId,
            error := some ("Task " ++ taskId ++ " not found") })
    | some task =>
      let baseBranch := task.config.baseBranch.getD "main"
      match o.checkout with
      | some msg => (s, { success := false, taskId, error := some msg })
      | none =>
        let s2 := { s with repoBranch := baseBranch }
        let s3 : OverlayState :=
          { s2 with activeTasks := aremove s2.activeTasks taskId,
                    currentTaskId :=
                      if s2.currentTaskId = some taskId then none
                      else s2.currentTaskId }
        (s3, { success := true, taskId, branch := some task.branch,
               commits := some task.commits })

/-- Embeds `getCurrentTask()` (lines 390-395). -/
def getCurrentTask (s : OverlayState) : Option TaskConfig :=
  match s.currentTaskId with
  | none => none
  | some tid => (alookup s.activeTasks tid).map TaskState.config

/-- Embeds `commit(message, files)` (lines 399-429): manual commit; a non-empty
hash is recorded into the active task; the result carries the driver hash
and the message. -/
def commitOp (s : OverlayState) (message : String) (o : CommitOutcome) :
    OverlayState × CommitResult :=
  if !s.hasGit then
    (s, { success := false, error := some "Git versioning is not enabled" })
  else
    match o with
    | .error msg => (s, { success := false, error := some msg })
    | .ok h =>
      let s' := if h ≠ "" then pushToCurrent s h else s
      (s', { success := true, hash := some h, message := some message })

/-- Embeds `getHistory(limit)` (lines 431-451). -/
def getHistoryOp (s : OverlayState) (o : Except String (List CommitRecord)) :
    OverlayState × HistoryResult :=
  if !s.hasGit then
    (s, { success := false, error := some "Git versioning is not enabled" })
  else
    match o with
    | .error msg => (s, { success := false, error := some msg })
    | .ok l => (s, { success := true, commits := some l })

/-- Modelled from the spec: the result of a mutation operation of the
wrapped semantic backend (`src/semantic/types.ts` is not part of the
provided sources); spec section 6 requires at minimum a success flag and
the affected paths.  The overlay only reads `success` and returns the
result unchanged. -/
structure MutationResult where
  success : Bool
  affectedPaths : List String := []
deriving DecidableEq, Repr

/-- Embeds `updateContent(intent)` (lines 152-164): forward to the wrapped backend
(whose result is the `res` input), then commit only on success.  The
staged path list and commit message only parametrize the driver call
abstracted by `o`. -/
def updateContent (s : OverlayState) (res : MutationResult) (o : CommitOutcome) :
    OverlayState × MutationResult :=
  let s' := if res.success && s.hasGit then commitIfEnabled s o else s
  (s', res)

/-- Embeds `organizeFiles(intent)` (lines 166-192): same commit-on-success shape. -/
def organizeFiles (s : OverlayState) (res : MutationResult) (o : CommitOutcome) :
    OverlayState × MutationResult :=
  let s' := if res.success && s.hasGit then commitIfEnabled s o else s
  (s', res)

/-- Embeds `removeFiles(intent)` (lines 194-208): same commit-on-success shape. -/
def removeFiles (s : OverlayState) (res : MutationResult) (o : CommitOutcome) :
    OverlayState × MutationResult :=
  let s' := if res.success && s.hasGit then commitIfEnabled s o else s
  (s', res)

/-- The single-active-task correspondence: `currentTaskId` is set exactly
when `activeTasks` holds exactly one entry, keyed by that id. -/
def Inv (s : OverlayState) : Prop :=
  (∀ tid, s.currentTaskId = some tid → akeys s.activeTasks = [tid]) ∧
  (s.currentTaskId = none → s.activeTasks = [])

/-- Sample: the task record of an active task `A` on branch `task-A`. -/
def taskA : TaskState :=
  ⟨⟨"A", none, none, none, none⟩, "task-A", "t0", []⟩

/-- Sample: an overlay (versioning enabled, auto-commit on) with task `A`
active. -/
def sActive : OverlayState :=
  ⟨true, true, false, none, none, [("A", taskA)], some "A", "task-A"⟩

/-- Sample: an overlay (versioning enabled, auto-commit on) with no active
task. -/
def sIdle : OverlayState :=
  ⟨true, true, false, none, none, [], none, "main"⟩

/-- Sample: an overlay configured with default branch `develop`, working
tree on `develop`, no active task. -/
def sDevelop : OverlayState :=
  ⟨true, true, false, none, some "develop", [], none, "develop"⟩

/-- Sample: a fresh initialized repository with no files. -/
def emptyRepo : GitRepo :=
  ⟨true, "main", [], [], [], []⟩

/-- Sample: a repository whose working tree, index and `HEAD` coincide
(nothing staged). -/
def rClean : GitRepo :=
  ⟨true, "main", [⟨"commit1", "Create a.txt"⟩],
   [("a.txt", "x")], [("a.txt", "x")], [("a.txt", "x")]⟩

/-- Sample: a directory with one pre-existing file that is not yet a
repository. -/
def rSeed : GitRepo :=
  ⟨false, "main", [], [], [], [("readme.md", "hi")]⟩

end PackFS

namespace PackFS

/-! ### Supporting lemmas -/

@[simp] theorem alookup_nil {α : Type} (k : String) : alookup ([] : List (String × α)) k = none := rfl

@[simp] theorem alookup_cons {α : Type} (k key : String) (v : α) (rest : List (String × α)) :
    alookup ((k, v) :: rest) key = if key = k then some v else alookup rest key := rfl

theorem alookup_isSome_mem {α : Type} (l : List (String × α)) (key : String)
    (h : (alookup l key).isSome) : key ∈ akeys l := by
  induction l with
  | nil => simp [alookup] at h
  | cons p rest ih =>
    obtain ⟨k, v⟩ := p
    by_cases hk : key = k
    · simp [akeys, hk]
    · simp [alookup, hk] at h
      simp [akeys]
      right
      have := ih h
      simpa [akeys] using this

theorem strStarts_append (p r : String) : strStarts p (p ++ r) = true := by
  simp [strStarts, String.toList, String.data_append, List.isPrefixOf_iff_prefix]

theorem mem_akeys_isSome {α : Type} (l : List (String × α)) (key : String)
    (h : key ∈ akeys l) : (alookup l key).isSome = true := by
  induction l with
  | nil => simp [akeys] at h
  | cons p rest ih =>
    by_cases hk : key = p.1
    · simp [alookup, hk]
    · simp [akeys, hk] at h
      simp [alookup, hk, ih, h, akeys]

theorem akeys_bumpTask (l : List (String × TaskState)) (tid h : String) :
    akeys (bumpTask l tid h) = akeys l := by
  induction l with
  | nil => rfl
  | cons p rest ih =>
    simp only [bumpTask, akeys, List.map_cons] at *
    by_cases hp : p.1 = tid <;> simp [hp, ih]

theorem bumpTask_cons (a : String) (v : TaskState) (rest : List (String × TaskState))
    (tid h : String) :
    bumpTask ((a, v) :: rest) tid h =
      (if a = tid then (a, { v with commits := v.commits ++ [h] }) else (a, v)) ::
        bumpTask rest tid h := rfl

theorem alookup_bumpTask (l : List (String × TaskState)) (tid h k : String) :
    alookup (bumpTask l tid h) k =
      if k = tid then
        (alookup l k).map (fun t => { t with commits := t.commits ++ [h] })
      else alookup l k := by
  induction l with
  | nil => simp [bumpTask, alookup]
  | cons p rest ih =>
    obtain ⟨a, v⟩ := p
    rw [bumpTask_cons]
    by_cases hp : a = tid
    · rw [if_pos hp]
      subst hp
      by_cases hk : k = a
      · subst hk
        simp [alookup]
      · simp [alookup, hk, ih]
    · rw [if_neg hp]
      by_cases hk : k = a
      · subst hk
        simp [alookup, hp]
      · simp [alookup, hk, ih]

theorem pushToCurrent_currentTaskId (s : OverlayState) (h : String) :
    (pushToCurrent s h).currentTaskId = s.currentTaskId := by
  unfold pushToCurrent
  split
  · rfl
  · split <;> rfl

theorem pushToCurrent_akeys (s : OverlayState) (h : String) :
    akeys (pushToCurrent s h).activeTasks = akeys s.activeTasks := by
  unfold pushToCurrent
  split
  · rfl
  · split
    · rfl
    · simp [akeys_bumpTask]

theorem pushToCurrent_config (s : OverlayState) (h : String) (k : String) :
    (alookup (pushToCurrent s h).activeTasks k).map TaskState.config =
      (alookup s.activeTasks k).map TaskState.config := by
  unfold pushToCurrent
  split
  · rfl
  · split
    · rfl
    · simp only [alookup_bumpTask]
      split
      · cases alookup s.activeTasks k <;> rfl
      · rfl

theorem pushToCurrent_others (s : OverlayState) (h : String) :
    (pushToCurrent s h).hasGit = s.hasGit ∧
      (pushToCurrent s h).repoBranch = s.repoBranch := by
  unfold pushToCurrent
  split
  · exact ⟨rfl, rfl⟩
  · split <;> exact ⟨rfl, rfl⟩

theorem commitIfEnabled_error (s : OverlayState) (e : String) :
    commitIfEnabled s (.error e) = s := by
  unfold commitIfEnabled
  split <;> rfl

theorem commitIfEnabled_currentTaskId (s : OverlayState) (o : CommitOutcome) :
    (commitIfEnabled s o).currentTaskId = s.currentTaskId := by
  unfold commitIfEnabled
  split
  · rfl
  · rcases o with e | h
    · rfl
    · simp only
      split
      · exact pushToCurrent_currentTaskId s h
      · rfl

theorem commitIfEnabled_akeys (s : OverlayState) (o : CommitOutcome) :
    akeys (commitIfEnabled s o).activeTasks = akeys s.activeTasks := by
  unfold commitIfEnabled
  split
  · rfl
  · rcases o with e | h
    · rfl
    · simp only
      split
      · exact pushToCurrent_akeys s h
      · rfl

theorem commitIfEnabled_config (s : OverlayState) (o : CommitOutcome) (k : String) :
    (alookup (commitIfEnabled s o).activeTasks k).map TaskState.config =
      (alookup s.activeTasks k).map TaskState.config := by
  unfold commitIfEnabled
  split
  · rfl
  · rcases o with e | h
    · rfl
    · simp only
      split
      · exact pushToCurrent_config s h k
      · rfl

theorem commitIfEnabled_repoBranch (s : OverlayState) (o : CommitOutcome) :
    (commitIfEnabled s o).repoBranch = s.repoBranch := by
  unfold commitIfEnabled
  split
  · rfl
  · rcases o with e | h
    · rfl
    · simp only
      split
      · exact (pushToCurrent_others s h).2
      · rfl

theorem akeys_aset_nil {α : Type} (k : String) (v : α) :
    akeys (aset ([] : List (String × α)) k v) = [k] := rfl

theorem aremove_of_akeys_singleton (l : List (String × TaskState)) (k : String)
    (h : akeys l = [k]) : aremove l k = [] := by
  cases l with
  | nil => simp [akeys] at h
  | cons p rest =>
    cases rest with
    | nil =>
      simp only [akeys, List.map_cons, List.map_nil] at h
      obtain ⟨h1, _⟩ := List.cons.inj h
      simp [aremove, h1]
    | cons q rest' => simp [akeys] at h

theorem Inv_pushToCurrent (s : OverlayState) (h : String) (hs : Inv s) :
    Inv (pushToCurrent s h) := by
  constructor
  · intro tid heq
    rw [pushToCurrent_currentTaskId] at heq
    rw [pushToCurrent_akeys]
    exact hs.1 tid heq
  · intro heq
    rw [pushToCurrent_currentTaskId] at heq
    unfold pushToCurrent
    rw [heq]
    exact hs.2 heq

theorem Inv_commitIfEnabled (s : OverlayState) (o : CommitOutcome) (hs : Inv s) :
    Inv (commitIfEnabled s o) := by
  unfold commitIfEnabled
  split
  · exact hs
  · rcases o with e | h
    · exact hs
    · simp only
      split
      · exact Inv_pushToCurrent s h hs
      · exact hs

theorem Inv_startTask (s : OverlayState) (c : TaskConfig) (now : String)
    (o : StartOracle) (hs : Inv s) : Inv (startTask s c now o).1 := by
  unfold startTask
  split
  · exact hs
  · split
    · exact hs
    · rename_i heq
      split
      · exact hs
      · have h0 : s.activeTasks = [] := hs.2 heq
        have hInv1 : Inv
            { s with repoBranch := c.branch.getD ("task-" ++ c.id),
                     activeTasks := aset s.activeTasks c.id
                       ⟨c, c.branch.getD ("task-" ++ c.id), now, []⟩,
                     currentTaskId := some c.id } := by
          constructor
          · intro tid ht
            obtain rfl : c.id = tid := by simpa using ht
            simp [h0, aset, akeys]
          · intro ht
            simp at ht
        simp only
        split
        · exact Inv_commitIfEnabled _ _ hInv1
        · exact hInv1

theorem current_eq_of_lookup (s : OverlayState) (taskId : String) (task : TaskState)
    (hs : Inv s) (heq : alookup s.activeTasks taskId = some task) :
    s.currentTaskId = some taskId := by
  cases hc : s.currentTaskId with
  | none =>
    have h0 := hs.2 hc
    rw [h0] at heq
    simp [alookup] at heq
  | some tid =>
    have hk := hs.1 tid hc
    have hmem : taskId ∈ akeys s.activeTasks :=
      alookup_isSome_mem _ _ (by simp [heq])
    rw [hk] at hmem
    simp at hmem
    rw [hmem]

theorem Inv_completeTask (s : OverlayState) (taskId : String)
    (options : Option CompleteTaskOptions) (o : CompleteOracle) (hs : Inv s) :
    Inv (completeTask s taskId options o).1 := by
  unfold completeTask
  split
  · exact hs
  · split
    · exact hs
    · rename_i task heq
      have hcur : s.currentTaskId = some taskId := current_eq_of_lookup s taskId task hs heq
      have hkeys : akeys s.activeTasks = [taskId] := hs.1 taskId hcur
      have hI1 : Inv
          (if optTrue (options.bind CompleteTaskOptions.createSummary) then
            commitIfEnabled s o.summaryCommit else s) := by
        split
        · exact Inv_commitIfEnabled _ _ hs
        · exact hs
      have hc1 :
          (if optTrue (options.bind CompleteTaskOptions.createSummary) then
            commitIfEnabled s o.summaryCommit else s).currentTaskId = some taskId := by
        split
        · rw [commitIfEnabled_currentTaskId]; exact hcur
        · exact hcur
      have hk1 :
          akeys (if optTrue (options.bind CompleteTaskOptions.createSummary) then
            commitIfEnabled s o.summaryCommit else s).activeTasks = [taskId] := by
        split
        · rw [commitIfEnabled_akeys]; exact hkeys
        · exact hkeys
      dsimp only
      split
      · exact hI1
      · split
        · split
          · constructor
            · intro tid ht
              simp only [hc1] at ht
              simp at ht
            · intro _
              exact aremove_of_akeys_singleton _ _ hk1
          · split
            · exact hI1
            · constructor
              · intro tid ht
                simp only [hc1] at ht
                simp at ht
              · intro _
                exact aremove_of_akeys_singleton _ _ hk1
        · constructor
          · intro tid ht
            simp only [hc1] at ht
            simp at ht
          · intro _
            exact aremove_of_akeys_singleton _ _ hk1

theorem Inv_abortTask (s : OverlayState) (taskId : String) (o : AbortOracle)
    (hs : Inv s) : Inv (abortTask s taskId o).1 := by
  unfold abortTask
  split
  · exact hs
  · split
    · exact hs
    · rename_i task heq
      have hcur : s.currentTaskId = some taskId := current_eq_of_lookup s taskId task hs heq
      have hkeys : akeys s.activeTasks = [taskId] := hs.1 taskId hcur
      dsimp only
      split
      · exact hs
      · constructor
        · intro tid ht
          simp only [hcur] at ht
          simp at ht
        · intro _
          exact aremove_of_akeys_singleton _ _ hkeys

theorem Inv_commitOp (s : OverlayState) (message : String) (o : CommitOutcome)
    (hs : Inv s) : Inv (commitOp s message o).1 := by
  unfold commitOp
  split
  · exact hs
  · rcases o with e | h
    · exact hs
    · dsimp only
      split
      · exact Inv_pushToCurrent s h hs
      · exact hs

theorem Inv_updateContent (s : OverlayState) (res : MutationResult)
    (o : CommitOutcome) (hs : Inv s) : Inv (updateContent s res o).1 := by
  unfold updateContent
  dsimp only
  split
  · exact Inv_commitIfEnabled _ _ hs
  · exact hs

theorem Inv_organizeFiles (s : OverlayState) (res : MutationResult)
    (o : CommitOutcome) (hs : Inv s) : Inv (organizeFiles s res o).1 := by
  unfold organizeFiles
  dsimp only
  split
  · exact Inv_commitIfEnabled _ _ hs
  · exact hs

theorem Inv_removeFiles (s : OverlayState) (res : MutationResult)
    (o : CommitOutcome) (hs : Inv s) : Inv (removeFiles s res o).1 := by
  unfold removeFiles
  dsimp only
  split
  · exact Inv_commitIfEnabled _ _ hs
  · exact hs

theorem alookup_aremove_self {α : Type} (l : List (String × α)) (k : String) :
    alookup (aremove l k) k = none := by
  induction l with
  | nil => rfl
  | cons p rest ih =>
    obtain ⟨a, v⟩ := p
    by_cases hk : a = k
    · simp [aremove, hk] at ih ⊢
      simpa [aremove] using ih
    · simp [aremove, hk] at ih ⊢
      simpa [alookup, Ne.symm hk, aremove] using ih

/-! ### Claim theorems -/

/-- C1: a `startTask(B)` call made while another task `A` is active returns
`success: false` with an error message naming the blocking task id `A`,
and mutates nothing: the state is returned exactly as given, so `A` stays
the active task with its branch and commit list intact and no record for
`B` is created. -/
theorem startTask_while_active_fails_without_mutation
    (s : OverlayState) (config : TaskConfig) (now : String) (o : StartOracle)
    (a : String) (hg : s.hasGit = true) (ha : s.currentTaskId = some a) :
    startTask s config now o =
      (s, { success := false, taskId := config.id,
            error := some ("Task " ++ a ++
              " is already active. Complete it before starting a new task.") }) := by
  simp [startTask, hg, ha]

/-- C1 witness: concrete conflicting start while task `A` is active. -/
theorem startTask_while_active_fails_without_mutation_witness :
    startTask sActive ⟨"B", none, none, none, none⟩ "t1" ⟨none, .ok ""⟩ =
      (sActive,
       { success := false, taskId := "B",
         error := some
           "Task A is already active. Complete it before starting a new task." }) :=
  startTask_while_active_fails_without_mutation sActive
    ⟨"B", none, none, none, none⟩ "t1" ⟨none, .ok ""⟩ "A" rfl rfl

/-- C2: for each mutating passthrough (`updateContent`, `organizeFiles`,
`removeFiles`), when the wrapped backend reports success and the subsequent
stage-and-commit driver call fails, the failure is absorbed: the operation
returns the backend's successful result unchanged, and the overlay state is
also unchanged. -/
theorem mutation_commit_failure_absorbed
    (s : OverlayState) (res : MutationResult) (e : String)
    (hres : res.success = true) :
    updateContent s res (.error e) = (s, res) ∧
    organizeFiles s res (.error e) = (s, res) ∧
    removeFiles s res (.error e) = (s, res) := by
  refine ⟨?_, ?_, ?_⟩ <;>
    simp [updateContent, organizeFiles, removeFiles, commitIfEnabled_error, hres]

/-- C2 witness: concrete successful mutation whose commit step fails. -/
theorem mutation_commit_failure_absorbed_witness :
    updateContent sIdle ⟨true, ["a.txt"]⟩ (.error "disk full") =
      (sIdle, ⟨true, ["a.txt"]⟩) ∧
    organizeFiles sIdle ⟨true, ["a.txt"]⟩ (.error "disk full") =
      (sIdle, ⟨true, ["a.txt"]⟩) ∧
    removeFiles sIdle ⟨true, ["a.txt"]⟩ (.error "disk full") =
      (sIdle, ⟨true, ["a.txt"]⟩) :=
  mutation_commit_failure_absorbed sIdle ⟨true, ["a.txt"]⟩ "disk full" rfl

/-- C3: in `completeTask`, when a requested merge fails: under strategy
`"manual"` the failure is swallowed and the call succeeds with
`merged: false` (and the task is deregistered); under any other or absent
strategy the call fails with the merge error and the task record stays
registered with its configuration intact. -/
theorem completeTask_merge_failure_policy
    (s : OverlayState) (taskId : String) (task : TaskState)
    (options : Option CompleteTaskOptions) (o : CompleteOracle) (err : String)
    (hg : s.hasGit = true)
    (ht : alookup s.activeTasks taskId = some task)
    (hck : o.checkout = none)
    (hmg : (optTrue task.config.autoMerge ||
      optTrue (options.bind CompleteTaskOptions.merge)) = true)
    (hme : o.merge = some err) :
    (strategyOf options = some .manual →
      (completeTask s taskId options o).2.success = true ∧
      (completeTask s taskId options o).2.merged = some false ∧
      alookup (completeTask s taskId options o).1.activeTasks taskId = none) ∧
    (strategyOf options ≠ some .manual →
      (completeTask s taskId options o).2.success = false ∧
      (completeTask s taskId options o).2.error = some err ∧
      (alookup (completeTask s taskId options o).1.activeTasks taskId).map
        TaskState.config = some task.config) := by
  constructor
  · intro hman
    simp [completeTask, hg, ht, hck, hme, hmg, hman, alookup_aremove_self]
  · intro hman
    simp [completeTask, hg, ht, hck, hme, hmg, hman]
    split
    · have hcc := commitIfEnabled_config s o.summaryCommit taskId
      rw [ht] at hcc
      rcases halt : alookup (commitIfEnabled s o.summaryCommit).activeTasks taskId
        with _ | t
      · rw [halt] at hcc
        simp at hcc
      · rw [halt] at hcc
        simp at hcc
        exact ⟨t, rfl, hcc⟩
    · exact ⟨task, ht, rfl⟩

/-- C3 witness: concrete merge failure under both strategies. -/
theorem completeTask_merge_failure_policy_witness :
    ((completeTask sActive "A"
        (some ⟨some true, none, none, some ⟨some .manual, none⟩⟩)
        ⟨.ok "", none, some "merge conflict"⟩).2.success = true ∧
      (completeTask sActive "A"
        (some ⟨some true, none, none, some ⟨some .manual, none⟩⟩)
        ⟨.ok "", none, some "merge conflict"⟩).2.merged = some false ∧
      alookup (completeTask sActive "A"
        (some ⟨some true, none, none, some ⟨some .manual, none⟩⟩)
        ⟨.ok "", none, some "merge conflict"⟩).1.activeTasks "A" = none) ∧
    ((completeTask sActive "A" (some ⟨some true, none, none, none⟩)
        ⟨.ok "", none, some "merge conflict"⟩).2.success = false ∧
      (completeTask sActive "A" (some ⟨some true, none, none, none⟩)
        ⟨.ok "", none, some "merge conflict"⟩).2.error = some "merge conflict" ∧
      (alookup (completeTask sActive "A" (some ⟨some true, none, none, none⟩)
        ⟨.ok "", none, some "merge conflict"⟩).1.activeTasks "A").map
        TaskState.config = some taskA.config) :=
  ⟨(completeTask_merge_failure_policy sActive "A" taskA
      (some ⟨some true, none, none, some ⟨some .manual, none⟩⟩)
      ⟨.ok "", none, some "merge conflict"⟩ "merge conflict"
      rfl rfl rfl rfl rfl).1 rfl,
   (completeTask_merge_failure_policy sActive "A" taskA
      (some ⟨some true, none, none, none⟩)
      ⟨.ok "", none, some "merge conflict"⟩ "merge conflict"
      rfl rfl rfl rfl rfl).2 (by decide)⟩

/-- C10: when `completeTask`'s merge fails under a non-`"manual"` strategy,
the earlier checkout of the base branch is not rolled back: the call
returns `success: false` with the merge error, the task stays registered
and `getCurrentTask` still returns its configuration, but the working tree
is left on the task's base branch. -/
theorem completeTask_merge_failure_leaves_base_checked_out
    (s : OverlayState) (taskId : String) (task : TaskState)
    (options : Option CompleteTaskOptions) (o : CompleteOracle) (err : String)
    (hg : s.hasGit = true)
    (ht : alookup s.activeTasks taskId = some task)
    (hcur : s.currentTaskId = some taskId)
    (hck : o.checkout = none)
    (hmg : (optTrue task.config.autoMerge ||
      optTrue (options.bind CompleteTaskOptions.merge)) = true)
    (hstrat : strategyOf options ≠ some .manual)
    (hme : o.merge = some err) :
    (completeTask s taskId options o).2.success = false ∧
    (completeTask s taskId options o).2.error = some err ∧
    getCurrentTask (completeTask s taskId options o).1 = some task.config ∧
    (completeTask s taskId options o).1.repoBranch =
      task.config.baseBranch.getD "main" := by
  have hc1 :
      (if optTrue (options.bind CompleteTaskOptions.createSummary) then
        commitIfEnabled s o.summaryCommit else s).currentTaskId = some taskId := by
    split
    · rw [commitIfEnabled_currentTaskId]
      exact hcur
    · exact hcur
  have hcfg :
      (alookup (if optTrue (options.bind CompleteTaskOptions.createSummary) then
        commitIfEnabled s o.summaryCommit else s).activeTasks taskId).map
        TaskState.config = some task.config := by
    split
    · rw [commitIfEnabled_config, ht]
      rfl
    · rw [ht]
      rfl
  simp [completeTask, hg, ht, hck, hme, hmg, hstrat, getCurrentTask, hc1, hcfg]

/-- C8: in every state satisfying the single-active-task correspondence
(`currentTaskId` set iff `activeTasks` holds exactly one entry, keyed by
it), each public operation — `startTask`, `completeTask`, `abortTask`, the
mutating passthroughs and the manual `commit` — preserves it, on success
and failure paths alike, for every driver outcome. -/
theorem public_ops_preserve_single_task_correspondence
    (s : OverlayState) (c : TaskConfig) (now : String) (o1 : StartOracle)
    (tid1 tid2 msg : String) (opts : Option CompleteTaskOptions)
    (o2 : CompleteOracle) (o3 : AbortOracle) (res : MutationResult)
    (o4 o5 o6 oc : CommitOutcome)
    (hs : Inv s) :
    Inv (startTask s c now o1).1 ∧ Inv (completeTask s tid1 opts o2).1 ∧
    Inv (abortTask s tid2 o3).1 ∧ Inv (updateContent s res o4).1 ∧
    Inv (organizeFiles s res o5).1 ∧ Inv (removeFiles s res o6).1 ∧
    Inv (commitOp s msg oc).1 :=
  ⟨Inv_startTask s c now o1 hs, Inv_completeTask s tid1 opts o2 hs,
   Inv_abortTask s tid2 o3 hs, Inv_updateContent s res o4 hs,
   Inv_organizeFiles s res o5 hs, Inv_removeFiles s res o6 hs,
   Inv_commitOp s msg oc hs⟩

/-- C8 witness: the correspondence holds in the idle sample state and is
preserved by each operation there (with a mix of succeeding and failing
driver outcomes). -/
theorem public_ops_preserve_single_task_correspondence_witness :
    Inv (startTask sIdle ⟨"T1", some "d", none, none, none⟩ "t1"
      ⟨none, .ok "h1"⟩).1 ∧
    Inv (completeTask sIdle "T1" none ⟨.ok "", some "checkout failed", none⟩).1 ∧
    Inv (abortTask sIdle "T1" ⟨none⟩).1 ∧
    Inv (updateContent sIdle ⟨true, ["a.txt"]⟩ (.ok "h2")).1 ∧
    Inv (organizeFiles sIdle ⟨true, ["b.txt"]⟩ (.error "boom")).1 ∧
    Inv (removeFiles sIdle ⟨false, []⟩ (.ok "")).1 ∧
    Inv (commitOp sIdle "manual" (.ok "h3")).1 :=
  public_ops_preserve_single_task_correspondence sIdle
    ⟨"T1", some "d", none, none, none⟩ "t1" ⟨none, .ok "h1"⟩
    "T1" "T1" "manual" none ⟨.ok "", some "checkout failed", none⟩ ⟨none⟩
    ⟨true, ["a.txt"]⟩ (.ok "h2") (.error "boom") (.ok "") (.ok "h3")
    ⟨fun tid h => by simp [sIdle] at h, fun _ => rfl⟩

/-- C9: `startTask`, `completeTask`, `abortTask`, `commit` and `getHistory`
never throw: for every state and every driver outcome (including driver
failures) they return an ordinary result which either succeeds or carries
`success: false` together with an error message string. -/
theorem task_ops_never_throw
    (s : OverlayState) (c : TaskConfig) (now : String) (o1 : StartOracle)
    (tid1 tid2 msg : String) (opts : Option CompleteTaskOptions)
    (o2 : CompleteOracle) (o3 : AbortOracle) (oc : CommitOutcome)
    (oh : Except String (List CommitRecord)) :
    ((startTask s c now o1).2.success = true ∨
      ((startTask s c now o1).2.success = false ∧
        (startTask s c now o1).2.error.isSome = true)) ∧
    ((completeTask s tid1 opts o2).2.success = true ∨
      ((completeTask s tid1 opts o2).2.success = false ∧
        (completeTask s tid1 opts o2).2.error.isSome = true)) ∧
    ((abortTask s tid2 o3).2.success = true ∨
      ((abortTask s tid2 o3).2.success = false ∧
        (abortTask s tid2 o3).2.error.isSome = true)) ∧
    ((commitOp s msg oc).2.success = true ∨
      ((commitOp s msg oc).2.success = false ∧
        (commitOp s msg oc).2.error.isSome = true)) ∧
    ((getHistoryOp s oh).2.success = true ∨
      ((getHistoryOp s oh).2.success = false ∧
        (getHistoryOp s oh).2.error.isSome = true)) := by
  refine ⟨?_, ?_, ?_, ?_, ?_⟩
  · unfold startTask
    repeat' split
    all_goals first | (left; rfl) | (right; exact ⟨rfl, rfl⟩)
  · unfold completeTask
    dsimp only
    repeat' split
    all_goals first | (left; rfl) | (right; exact ⟨rfl, rfl⟩)
  · unfold abortTask
    repeat' split
    all_goals first | (left; rfl) | (right; exact ⟨rfl, rfl⟩)
  · unfold commitOp
    repeat' split
    all_goals first | (left; rfl) | (right; exact ⟨rfl, rfl⟩)
  · unfold getHistoryOp
    repeat' split
    all_goals first | (left; rfl) | (right; exact ⟨rfl, rfl⟩)

/-- C10 witness: concrete non-manual merge failure after checkout. -/
theorem completeTask_merge_failure_leaves_base_checked_out_witness :
    (completeTask sActive "A" (some ⟨some true, none, none, none⟩)
      ⟨.ok "", none, some "merge conflict"⟩).2.success = false ∧
    (completeTask sActive "A" (some ⟨some true, none, none, none⟩)
      ⟨.ok "", none, some "merge conflict"⟩).2.error = some "merge conflict" ∧
    getCurrentTask (completeTask sActive "A" (some ⟨some true, none, none, none⟩)
      ⟨.ok "", none, some "merge conflict"⟩).1 = some taskA.config ∧
    (completeTask sActive "A" (some ⟨some true, none, none, none⟩)
      ⟨.ok "", none, some "merge conflict"⟩).1.repoBranch =
      taskA.config.baseBranch.getD "main" :=
  completeTask_merge_failure_leaves_base_checked_out sActive "A" taskA
    (some ⟨some true, none, none, none⟩) ⟨.ok "", none, some "merge conflict"⟩
    "merge conflict" rfl rfl rfl rfl rfl (by decide) rfl

/-- C4 counterexample: with nothing staged (index equal to `HEAD`),
`GitWrapper.commit` does not return the empty sentinel — the underlying
`git commit` exits non-zero and the wrapper throws. -/
theorem gitWrapper_commit_nothing_staged_throws :
    GitWrapper.commit rClean "Update a.txt" =
      .error "Git command failed: nothing to commit, working tree clean" := rfl

/-- C4 amended: when staging succeeds and leaves the index equal to `HEAD`
(nothing staged), `addAndCommit` returns the empty sentinel instead of an
error (the subprocess wrapper via its `diff --cached` guard, the
isomorphic wrapper via its status-matrix guard in `commit`); a staging
failure itself — a pathspec matching neither working tree nor index —
still propagates out of `addAndCommit`; and writing identical content to
the same path twice and committing via `addAndCommit` both times yields
exactly one commit, the second call returning the empty sentinel.  Only
the bare subprocess-backed `commit` throws on the nothing-staged state
itself (see the counterexample). -/
theorem addAndCommit_empty_sentinel :
    (∀ (r : GitRepo) (files : List String) (msg : String) (r1 : GitRepo),
      GitWrapper.add r files = .ok r1 →
      treeEq r1.index r1.headTree = true →
      GitWrapper.addAndCommit r files msg = .ok (r1, "")) ∧
    (∀ (r : GitRepo) (msg : String),
      IsoGit.hasStaged r = false → IsoGit.commit r msg = (r, "")) ∧
    (GitWrapper.addAndCommit rClean ["ghost.txt"] "m" =
      .error "Git command failed: pathspec did not match any files") ∧
    (∃ r2 : GitRepo,
      GitWrapper.addAndCommit (writeFile emptyRepo "a.txt" "hello") ["a.txt"]
        "Create a.txt" = .ok (r2, "commit1") ∧
      GitWrapper.addAndCommit (writeFile r2 "a.txt" "hello") ["a.txt"]
        "Create a.txt" = .ok (writeFile r2 "a.txt" "hello", "") ∧
      (writeFile r2 "a.txt" "hello").commits.length = 1) := by
  refine ⟨?_, ?_, ?_, ?_⟩
  · intro r files msg r1 ha h
    simp [GitWrapper.addAndCommit, ha, h]
  · intro r msg h
    simp [IsoGit.commit, h]
  · rfl
  · refine ⟨⟨true, "main", [⟨"commit1", "Create a.txt"⟩],
      [("a.txt", "hello")], [("a.txt", "hello")], [("a.txt", "hello")]⟩, rfl, rfl, rfl⟩

/-- C4 witness: concrete nothing-staged `addAndCommit` calls returning the
sentinel in both wrappers. -/
theorem addAndCommit_empty_sentinel_witness :
    GitWrapper.addAndCommit rClean ["a.txt"] "again" = .ok (rClean, "") ∧
    IsoGit.commit rClean "again" = (rClean, "") :=
  ⟨addAndCommit_empty_sentinel.1 rClean ["a.txt"] "again" rClean rfl (by decide),
   addAndCommit_empty_sentinel.2.1 rClean "again" (by decide)⟩

/-- C5 counterexample: with a user template configured, the built message
is the substituted template and is not prefixed with the active task id:
here the template has no placeholders, so the message is the literal
template text even though task `T1` is active. -/
theorem template_message_not_prefixed_with_task :
    generateCommitMessage (some "frozen") (some "T1") "t0" "create"
      [("path", some "a.txt")] = "frozen" ∧
    strStarts "[T1] " (generateCommitMessage (some "frozen") (some "T1") "t0"
      "create" [("path", some "a.txt")]) = false := by decide

/-- C5 amended: with no user template configured, whenever a task is active
the built message begins with the prefix `[taskId] ` for every operation
kind and details; and the two concrete examples hold: operation `create`
on `a.txt` gives exactly `Create a.txt` with no active task and exactly
`[T1] Create a.txt` with active task `T1`. -/
theorem default_message_prefixed_with_task
    (tid now op : String) (details : List (String × Option String)) :
    strStarts ("[" ++ tid ++ "] ")
      (generateCommitMessage none (some tid) now op details) = true ∧
    generateCommitMessage none none now "create" [("path", some "a.txt")]
      = "Create a.txt" ∧
    generateCommitMessage none (some "T1") now "create" [("path", some "a.txt")]
      = "[T1] Create a.txt" := by
  refine ⟨?_, rfl, rfl⟩
  show strStarts ("[" ++ tid ++ "] ")
    (("[" ++ tid ++ "] ") ++ defaultMessage op details) = true
  exact strStarts_append _ _

/-- C6: evaluation at the failing input.  With the repository's configured
default branch `develop` and the working tree on `develop`, a task started
with no explicit `baseBranch` is completed (or aborted) by checking out the
hard-coded branch `main` — neither the configured default branch nor the
branch that was active when the task started (both are `develop`). -/
theorem completeTask_default_base_is_hardcoded_main :
    (startTask sDevelop ⟨"t", none, none, none, none⟩ "t1" ⟨none, .ok ""⟩).2.success
      = true ∧
    sDevelop.defaultBranch = some "develop" ∧
    sDevelop.repoBranch = "develop" ∧
    (completeTask
      (startTask sDevelop ⟨"t", none, none, none, none⟩ "t1" ⟨none, .ok ""⟩).1
      "t" none ⟨.ok "", none, none⟩).2.success = true ∧
    (completeTask
      (startTask sDevelop ⟨"t", none, none, none, none⟩ "t1" ⟨none, .ok ""⟩).1
      "t" none ⟨.ok "", none, none⟩).1.repoBranch = "main" ∧
    (abortTask
      (startTask sDevelop ⟨"t", none, none, none, none⟩ "t1" ⟨none, .ok ""⟩).1
      "t" ⟨none⟩).1.repoBranch = "main" ∧
    "main" ≠ "develop" := by decide

theorem foldl_preserve {α β γ : Type} (g : α → γ) (f : α → β → α)
    (h : ∀ a b, g (f a b) = g a) (l : List β) (acc : α) :
    g (l.foldl f acc) = g acc := by
  induction l generalizing acc with
  | nil => rfl
  | cons b t ih => rw [List.foldl_cons, ih, h]

theorem gw_init_fields (cfg : WrapperConfig) (r : GitRepo) :
    (GitWrapper.init cfg r).initialized = true ∧
    (GitWrapper.init cfg r).commits = [] ∧
    (GitWrapper.init cfg r).headTree = [] ∧
    (GitWrapper.init cfg r).index = [] ∧
    (GitWrapper.init cfg r).workdir = r.workdir := by
  unfold GitWrapper.init
  dsimp only
  split
  · split <;> exact ⟨rfl, rfl, rfl, rfl, rfl⟩
  · exact ⟨rfl, rfl, rfl, rfl, rfl⟩

theorem treeEq_cons_nil (a c : String) (t : Tree) :
    treeEq ((a, c) :: t) [] = false := by
  simp [treeEq, alookup]

theorem iso_stage_preserve (x : GitRepo) (f : String) :
    (IsoGit.stageFile x f).initialized = x.initialized ∧
    (IsoGit.stageFile x f).commits = x.commits ∧
    (IsoGit.stageFile x f).headTree = x.headTree ∧
    (IsoGit.stageFile x f).workdir = x.workdir := by
  unfold IsoGit.stageFile
  split <;> exact ⟨rfl, rfl, rfl, rfl⟩

theorem iso_hasStaged_of (r : GitRepo) (k : String)
    (hh : r.headTree = []) (hk : k ∈ akeys r.workdir) :
    IsoGit.hasStaged r = true := by
  unfold IsoGit.hasStaged
  rw [List.any_eq_true]
  refine ⟨k, ?_, ?_⟩
  · rw [hh]
    simp only [List.nil_append, List.map_append]
    exact List.mem_append_left _ (by simpa [akeys] using hk)
  · rw [hh]
    have hw := mem_akeys_isSome _ _ hk
    rcases hx : alookup r.workdir k with _ | c
    · rw [hx] at hw
      cases hw
    · rcases hi : alookup r.index k with _ | d
      · simp [alookup, hx, hi]
      · simp [alookup, hx, hi]

/-- C7: `ensureRepo` is idempotent in both wrappers: on an existing
repository it does nothing (in particular a second call changes no commit,
so no duplicate "Initial commit" can appear), and on a non-repository it
initializes and creates exactly one commit with message `Initial commit`
when pre-existing files are present, and none otherwise. -/
theorem ensureRepo_idempotent (cfg : WrapperConfig) (r : GitRepo) :
    (∃ r', GitWrapper.ensureRepo cfg r = .ok r' ∧
      GitWrapper.ensureRepo cfg r' = .ok r' ∧
      (r.initialized = true → r' = r) ∧
      (r.initialized = false → GitWrapper.hasFiles r = true →
        r'.commits.map GitCommit.message = ["Initial commit"]) ∧
      (r.initialized = false → GitWrapper.hasFiles r = false →
        r'.commits = [])) ∧
    (IsoGit.ensureRepo cfg (IsoGit.ensureRepo cfg r) = IsoGit.ensureRepo cfg r ∧
      (r.initialized = true → IsoGit.ensureRepo cfg r = r) ∧
      (r.initialized = false → IsoGit.hasFiles r = true →
        (IsoGit.ensureRepo cfg r).commits.map GitCommit.message
          = ["Initial commit"]) ∧
      (r.initialized = false → IsoGit.hasFiles r = false →
        (IsoGit.ensureRepo cfg r).commits = [])) := by
  obtain ⟨hgi, hgc, hgh, hgx, hgw⟩ := gw_init_fields cfg r
  constructor
  · cases hini : r.initialized
    · -- not yet a repository
      cases hf : GitWrapper.hasFiles r
      · -- no pre-existing files: initialize only
        have hf1 : GitWrapper.hasFiles (GitWrapper.init cfg r) = false := by
          unfold GitWrapper.hasFiles
          rw [hgw]
          exact hf
        have he : GitWrapper.ensureRepo cfg r = .ok (GitWrapper.init cfg r) := by
          unfold GitWrapper.ensureRepo
          rw [hini]
          dsimp only
          rw [hf1]
          rfl
        refine ⟨GitWrapper.init cfg r, he, ?_, ?_, ?_, ?_⟩
        · unfold GitWrapper.ensureRepo
          rw [hgi]
          rfl
        · intro h
          exact Bool.noConfusion h
        · intro _ h
          exact Bool.noConfusion h
        · intro _ _
          exact hgc
      · -- pre-existing files: initialize, stage all, commit once
        have hne : treeEq r.workdir ([] : Tree) = false := by
          rcases hwd : r.workdir with _ | ⟨⟨a, c⟩, t⟩
          · unfold GitWrapper.hasFiles at hf
            rw [hwd] at hf
            cases hf
          · exact treeEq_cons_nil a c t
        have hf1 : GitWrapper.hasFiles (GitWrapper.init cfg r) = true := by
          unfold GitWrapper.hasFiles
          rw [hgw]
          exact hf
        have hteq : treeEq (GitWrapper.addAll (GitWrapper.init cfg r)).index
            (GitWrapper.addAll (GitWrapper.init cfg r)).headTree = false := by
          show treeEq (GitWrapper.init cfg r).workdir
            (GitWrapper.init cfg r).headTree = false
          rw [hgw, hgh]
          exact hne
        have he : GitWrapper.ensureRepo cfg r =
            (GitWrapper.commit (GitWrapper.addAll (GitWrapper.init cfg r))
              "Initial commit").map Prod.fst := by
          unfold GitWrapper.ensureRepo
          rw [hini]
          dsimp only
          rw [hf1]
          rfl
        have hco : GitWrapper.commit (GitWrapper.addAll (GitWrapper.init cfg r))
            "Initial commit" =
            .ok ({ GitWrapper.addAll (GitWrapper.init cfg r) with
                commits := ⟨newHash (GitWrapper.addAll (GitWrapper.init cfg r)),
                  "Initial commit"⟩ ::
                    (GitWrapper.addAll (GitWrapper.init cfg r)).commits,
                headTree := (GitWrapper.addAll (GitWrapper.init cfg r)).index },
              newHash (GitWrapper.addAll (GitWrapper.init cfg r))) := by
          unfold GitWrapper.commit
          rw [hteq]
          rfl
        have hcomm : (GitWrapper.addAll (GitWrapper.init cfg r)).commits = [] := hgc
        refine ⟨_, by rw [he, hco]; rfl, ?_, ?_, ?_, ?_⟩
        · unfold GitWrapper.ensureRepo
          rw [show ({ GitWrapper.addAll (GitWrapper.init cfg r) with
              commits := _ :: _, headTree := _ } : GitRepo).initialized = true
            from hgi]
          rfl
        · intro h
          exact Bool.noConfusion h
        · intro _ _
          rw [show ({ GitWrapper.addAll (GitWrapper.init cfg r) with
              commits := _ :: _, headTree := _ } : GitRepo).commits = _ :: _
            from rfl]
          rw [hcomm]
          rfl
        · intro _ h
          exact Bool.noConfusion h
    · -- already a repository: nothing happens
      have he : GitWrapper.ensureRepo cfg r = .ok r := by
        unfold GitWrapper.ensureRepo
        rw [hini]
        rfl
      refine ⟨r, he, he, fun _ => rfl, ?_, ?_⟩ <;>
        · intro h
          exact Bool.noConfusion h
  · cases hini : r.initialized
    · cases hf : IsoGit.hasFiles r
      · have he : IsoGit.ensureRepo cfg r = IsoGit.init cfg r := by
          unfold IsoGit.ensureRepo
          rw [hini]
          dsimp only
          rw [show IsoGit.hasFiles (IsoGit.init cfg r) = false from hf]
          rfl
        refine ⟨?_, ?_, ?_, ?_⟩
        · rw [he]
          unfold IsoGit.ensureRepo
          rfl
        · intro h
          exact Bool.noConfusion h
        · intro _ h
          exact Bool.noConfusion h
        · intro _ _
          rw [he]
          rfl
      · -- pre-existing files
        obtain ⟨p, hp, _⟩ := List.any_eq_true.mp hf
        have hr2i : ((r.workdir.filter (fun q => !(strStarts ".git" q.1))).foldl
            (fun acc q => IsoGit.stageFile acc q.1)
            (IsoGit.init cfg r)).initialized = true := by
          rw [foldl_preserve GitRepo.initialized
            (fun (acc : GitRepo) (q : String × String) => IsoGit.stageFile acc q.1)
            (fun (a : GitRepo) (b : String × String) => (iso_stage_preserve a b.1).1)]
          rfl
        have hr2c : ((r.workdir.filter (fun q => !(strStarts ".git" q.1))).foldl
            (fun acc q => IsoGit.stageFile acc q.1)
            (IsoGit.init cfg r)).commits = [] := by
          rw [foldl_preserve GitRepo.commits
            (fun (acc : GitRepo) (q : String × String) => IsoGit.stageFile acc q.1)
            (fun (a : GitRepo) (b : String × String) => (iso_stage_preserve a b.1).2.1)]
          rfl
        have hr2h : ((r.workdir.filter (fun q => !(strStarts ".git" q.1))).foldl
            (fun acc q => IsoGit.stageFile acc q.1)
            (IsoGit.init cfg r)).headTree = [] := by
          rw [foldl_preserve GitRepo.headTree
            (fun (acc : GitRepo) (q : String × String) => IsoGit.stageFile acc q.1)
            (fun (a : GitRepo) (b : String × String) => (iso_stage_preserve a b.1).2.2.1)]
          rfl
        have hr2w : ((r.workdir.filter (fun q => !(strStarts ".git" q.1))).foldl
            (fun acc q => IsoGit.stageFile acc q.1)
            (IsoGit.init cfg r)).workdir = r.workdir := by
          rw [foldl_preserve GitRepo.workdir
            (fun (acc : GitRepo) (q : String × String) => IsoGit.stageFile acc q.1)
            (fun (a : GitRepo) (b : String × String) => (iso_stage_preserve a b.1).2.2.2)]
          rfl
        have hst : IsoGit.hasStaged
            ((r.workdir.filter (fun q => !(strStarts ".git" q.1))).foldl
              (fun acc q => IsoGit.stageFile acc q.1) (IsoGit.init cfg r))
            = true := by
          refine iso_hasStaged_of _ p.1 hr2h ?_
          rw [hr2w]
          exact List.mem_map_of_mem Prod.fst hp
        have he : IsoGit.ensureRepo cfg r =
            (IsoGit.commit
              ((r.workdir.filter (fun q => !(strStarts ".git" q.1))).foldl
                (fun acc q => IsoGit.stageFile acc q.1) (IsoGit.init cfg r))
              "Initial commit").1 := by
          unfold IsoGit.ensureRepo
          rw [hini]
          dsimp only
          rw [show IsoGit.hasFiles (IsoGit.init cfg r) = true from hf]
          rfl
        have hcommit : ∀ (x : GitRepo) (m : String), IsoGit.hasStaged x = true →
            IsoGit.commit x m =
              ({ x with
                 commits := ⟨newHash x, m⟩ :: x.commits,
                 headTree := x.index },
               newHash x) := by
          intro x m hx
          unfold IsoGit.commit
          rw [hx]
          rfl
        have hid : ∀ x : GitRepo, x.initialized = true →
            IsoGit.ensureRepo cfg x = x := by
          intro x hx
          unfold IsoGit.ensureRepo
          rw [hx]
          rfl
        have hri : (IsoGit.ensureRepo cfg r).initialized = true := by
          rw [he, hcommit _ _ hst]
          exact hr2i
        refine ⟨hid _ hri, ?_, ?_, ?_⟩
        · intro h
          exact Bool.noConfusion h
        · intro _ _
          rw [he, hcommit _ _ hst]
          dsimp only
          rw [hr2c]
          rfl
        · intro _ h
          exact Bool.noConfusion h
    · have he : IsoGit.ensureRepo cfg r = r := by
        unfold IsoGit.ensureRepo
        rw [hini]
        rfl
      refine ⟨?_, fun _ => he, ?_, ?_⟩
      · rw [he, he]
      all_goals
        · intro h
          exact Bool.noConfusion h

/-- C7 witness: bootstrapping a one-file directory produces exactly one
`Initial commit` in both wrappers. -/
theorem ensureRepo_idempotent_witness :
    (∃ r', GitWrapper.ensureRepo ⟨none⟩ rSeed = .ok r' ∧
      r'.commits.map GitCommit.message = ["Initial commit"]) ∧
    (IsoGit.ensureRepo ⟨none⟩ rSeed).commits.map GitCommit.message
      = ["Initial commit"] := by
  obtain ⟨⟨r', h1, _, _, h4, _⟩, hiso⟩ := ensureRepo_idempotent ⟨none⟩ rSeed
  exact ⟨⟨r', h1, h4 rfl (by decide)⟩, hiso.2.2.1 rfl (by decide)⟩

end PackFS
